import Mathlib

/-!
Shallow embedding of `src/main.py`, the "Business Model Canvas" HTTP API
(FastAPI + SQLAlchemy, multi-canvas variant).  The database is three
tables (canvases, sections, notes) with auto-increment integer primary
keys; each table is a list of rows in insertion order together with the
counter that assigns the next primary key.  Handlers are pure functions
from a database (plus the timestamp string that the source obtains from
`datetime.utcnow().isoformat()`) to a new database and a response.
`db.commit()` points are made observable: every mutating handler also
returns the list of committed database snapshots, one per `db.commit()`
call, in order.
-/

/-- Row of the `notes` table (`NoteModel`): auto id, frontend string id,
content, type tag, foreign key to the owning section row. -/
structure NoteModel where
  id : Nat
  note_id : String
  content : String
  type : String
  section_id : Nat
deriving DecidableEq, Repr

/-- Row of the `sections` table (`SectionModel`): auto id, the frontend
slot key (stored in column `section_id`), title, foreign key to the
owning canvas row. -/
structure SectionModel where
  id : Nat
  section_id : String
  title : String
  canvas_id : Nat
deriving DecidableEq, Repr

/-- Row of the `canvases` table (`CanvasModel`); timestamps are ISO
strings, as in the source. -/
structure CanvasModel where
  id : Nat
  name : String
  created_at : String
  updated_at : String
deriving DecidableEq, Repr

/-- The relational database: the three tables, in insertion order, plus
the auto-increment counter of each table's integer primary key. -/
structure DB where
  canvases : List CanvasModel
  sections : List SectionModel
  notes : List NoteModel
  nextCanvasId : Nat
  nextSectionId : Nat
  nextNoteId : Nat
deriving DecidableEq, Repr

/-- Wire format of a note (`NoteBase`): frontend string id, content,
type. -/
structure NoteBase where
  id : String
  content : String
  type : String
deriving DecidableEq, Repr

/-- Wire format of a section (`SectionBase`).  The Python field named
`section` is rendered `sectionField` here because `section` is a Lean
keyword. -/
structure SectionBase where
  id : String
  title : String
  sectionField : String
  notes : List NoteBase
deriving DecidableEq, Repr

/-- Wire format of a canvas body (`CanvasBase`): shared shape of
`CanvasCreate` and `CanvasUpdate`. -/
structure CanvasBase where
  name : String
  sections : List SectionBase
deriving DecidableEq, Repr

abbrev CanvasCreate := CanvasBase

abbrev CanvasUpdate := CanvasBase

/-- Response model `Canvas`: the body shape plus numeric id and the two
timestamps. -/
structure Canvas where
  id : Nat
  name : String
  created_at : String
  updated_at : String
  sections : List SectionBase
deriving DecidableEq, Repr

/-- FastAPI `HTTPException`, as raised by the handlers. -/
structure HTTPException where
  status_code : Nat
  detail : String
deriving DecidableEq, Repr

/-- The `canvas.sections` relationship: the section rows whose
`canvas_id` equals the canvas row's id, in insertion order. -/
def DB.canvasSections (db : DB) (cid : Nat) : List SectionModel :=
  db.sections.filter (fun s => s.canvas_id == cid)

/-- The `section.notes` relationship: the note rows whose `section_id`
equals the section row's id, in insertion order. -/
def DB.sectionNotes (db : DB) (sid : Nat) : List NoteModel :=
  db.notes.filter (fun n => n.section_id == sid)

/-- `db.query(CanvasModel).filter(CanvasModel.id == canvas_id).first()`. -/
def DB.findCanvas (db : DB) (cid : Nat) : Option CanvasModel :=
  db.canvases.find? (fun c => c.id == cid)

/-- Handler for `GET /api/canvases/...` (lines 180-214): look the canvas
row up, 404 when missing, otherwise assemble the nested response from
the child rows.  Each response section carries the stored slot key in
both its `id` and its `section` field. -/
def get_canvas (db : DB) (canvas_id : Nat) : Except HTTPException Canvas :=
  match db.findCanvas canvas_id with
  | none => .error { status_code := 404, detail := "Canvas not found" }
  | some canvas =>
      .ok { id := canvas.id
            name := canvas.name
            created_at := canvas.created_at
            updated_at := canvas.updated_at
            sections := (db.canvasSections canvas.id).map (fun s =>
              { id := s.section_id
                title := s.title
                sectionField := s.section_id
                notes := (db.sectionNotes s.id).map (fun n =>
                  { id := n.note_id, content := n.content, type := n.type }) }) }

/-- Committing a freshly added `CanvasModel`: the row receives the next
auto-increment id and is appended; the assigned id is returned (as read
back by `db.refresh`). -/
def insertCanvas (db : DB) (name created_at updated_at : String) : DB × Nat :=
  ({ db with
      canvases := db.canvases ++
        [{ id := db.nextCanvasId, name := name,
           created_at := created_at, updated_at := updated_at }]
      nextCanvasId := db.nextCanvasId + 1 },
   db.nextCanvasId)

/-- Committing a freshly added `SectionModel`; returns the assigned id. -/
def insertSection (db : DB) (slotKey title : String) (cid : Nat) : DB × Nat :=
  ({ db with
      sections := db.sections ++
        [{ id := db.nextSectionId, section_id := slotKey,
           title := title, canvas_id := cid }]
      nextSectionId := db.nextSectionId + 1 },
   db.nextSectionId)

/-- Committing a freshly added `NoteModel`. -/
def insertNote (db : DB) (noteKey content ty : String) (sid : Nat) : DB :=
  { db with
      notes := db.notes ++
        [{ id := db.nextNoteId, note_id := noteKey,
           content := content, type := ty, section_id := sid }]
      nextNoteId := db.nextNoteId + 1 }

/-- A staged `db.add(NoteModel(...))` that has not been flushed yet:
the field values of the pending row (its id is assigned at flush). -/
structure PendingNote where
  note_id : String
  content : String
  type : String
  section_id : Nat
deriving DecidableEq, Repr

/-- Flushing the staged note inserts at a `db.commit()`: each pending
note receives the next id and is appended to the notes table, in the
order the `db.add` calls were made. -/
def flushNotes : DB → List PendingNote → DB
  | db, [] => db
  | db, p :: ps => flushNotes (insertNote db p.note_id p.content p.type p.section_id) ps

/-- Session state while the section loop of `create_canvas` /
`update_canvas` runs: the committed database, the staged (not yet
flushed) note inserts, and the committed snapshot recorded at each
`db.commit()` so far. -/
structure SessionState where
  db : DB
  pending : List PendingNote
  trace : List DB
deriving DecidableEq, Repr

/-- One iteration of the section loop (source lines 155-174 and
235-254): `db.add(db_section)` then `db.commit()` — that commit also
flushes the note rows staged by the previous iteration — then
`db.refresh(db_section)` yields the new section id and the section's
notes are staged with `db.add`.  (Section and note ids come from the
two tables' independent counters, so flushing the staged notes before
the new section row is equivalent to any flush order of one commit.) -/
def sectionLoopStep (cid : Nat) (st : SessionState) (sec : SectionBase) : SessionState :=
  let d1 := flushNotes st.db st.pending
  let r := insertSection d1 sec.id sec.title cid
  { db := r.1
    pending := sec.notes.map (fun n =>
      { note_id := n.id, content := n.content, type := n.type, section_id := r.2 })
    trace := st.trace ++ [r.1] }

instance {ε α : Type} [DecidableEq ε] [DecidableEq α] : DecidableEq (Except ε α) := fun a b =>
  match a, b with
  | .ok x, .ok y =>
      if h : x = y then .isTrue (congrArg Except.ok h)
      else .isFalse (fun hc => h (by injection hc))
  | .error x, .error y =>
      if h : x = y then .isTrue (congrArg Except.error h)
      else .isFalse (fun hc => h (by injection hc))
  | .ok _, .error _ => .isFalse (fun hc => by injection hc)
  | .error _, .ok _ => .isFalse (fun hc => by injection hc)

/-- Outcome of a mutating handler: the final committed database, the
committed snapshot after each `db.commit()` call in order, and the HTTP
response. -/
structure HandlerResult where
  db : DB
  trace : List DB
  response : Except HTTPException Canvas
deriving DecidableEq, Repr

/-- Handler for `POST /api/canvases` (lines 137-178).  `now` is the
single `datetime.utcnow().isoformat()` string taken at entry.  The
canvas row is added and committed, then the section loop runs, then a
final `db.commit()` flushes the last section's notes; the response is
produced by calling `get_canvas` on the result. -/
def create_canvas (db0 : DB) (now : String) (canvas : CanvasCreate) : HandlerResult :=
  let r := insertCanvas db0 canvas.name now now
  let st0 : SessionState := { db := r.1, pending := [], trace := [r.1] }
  let st := canvas.sections.foldl (sectionLoopStep r.2) st0
  let dF := flushNotes st.db st.pending
  { db := dF, trace := st.trace ++ [dF], response := get_canvas dF r.2 }

/-- `db_canvas.name = canvas.name; db_canvas.updated_at = now` (lines
227-228): the ORM attribute updates, flushed with the next commit. -/
def setCanvasNameUpdated (db : DB) (cid : Nat) (name now : String) : DB :=
  { db with
      canvases := db.canvases.map (fun c =>
        if c.id == cid then { c with name := name, updated_at := now } else c) }

/-- `db.query(SectionModel).filter(SectionModel.canvas_id == canvas_id).delete()`
(line 231): a bulk DELETE against the sections table alone.  A bulk
`Query.delete()` does not run the ORM-level `cascade="all, delete"`
configured on `SectionModel.notes`, so the note rows of the deleted
sections stay in the notes table. -/
def bulkDeleteSections (db : DB) (cid : Nat) : DB :=
  { db with sections := db.sections.filter (fun s => !(s.canvas_id == cid)) }

/-- Handler for `PUT /api/canvases/...` (lines 216-257): 404 before any
mutation if the canvas row is missing; otherwise stage the name /
updated_at change, bulk-delete the section rows, commit (line 232),
run the same section loop as create, commit, and respond through
`get_canvas`. -/
def update_canvas (db0 : DB) (now : String) (canvas_id : Nat) (canvas : CanvasUpdate) :
    HandlerResult :=
  match db0.findCanvas canvas_id with
  | none =>
      { db := db0, trace := []
        response := .error { status_code := 404, detail := "Canvas not found" } }
  | some _ =>
      let d1 := bulkDeleteSections (setCanvasNameUpdated db0 canvas_id canvas.name now) canvas_id
      let st0 : SessionState := { db := d1, pending := [], trace := [d1] }
      let st := canvas.sections.foldl (sectionLoopStep canvas_id) st0
      let dF := flushNotes st.db st.pending
      { db := dF, trace := st.trace ++ [dF], response := get_canvas dF canvas_id }

/-- Handler for `DELETE /api/canvases/...` (lines 259-268): 404 before
any mutation if the canvas row is missing; otherwise `db.delete` on the
ORM object, whose configured cascades delete the canvas's section rows
and, through them, those sections' note rows. -/
def delete_canvas (db0 : DB) (canvas_id : Nat) : DB × Except HTTPException Unit :=
  match db0.findCanvas canvas_id with
  | none => (db0, .error { status_code := 404, detail := "Canvas not found" })
  | some _ =>
      let sids := (db0.canvasSections canvas_id).map (fun s => s.id)
      ({ db0 with
          canvases := db0.canvases.filter (fun c => !(c.id == canvas_id))
          sections := db0.sections.filter (fun s => !(s.canvas_id == canvas_id))
          notes := db0.notes.filter (fun n => !(sids.contains n.section_id)) },
       .ok ())

/-- Counter consistency: every stored primary key is below its table's
counter and every stored foreign key is below the referenced table's
counter, so a freshly assigned id is never already referenced.  This
holds of every database built by the API from an empty one. -/
def DB.wf (db : DB) : Prop :=
  (∀ c ∈ db.canvases, c.id < db.nextCanvasId) ∧
  (∀ s ∈ db.sections, s.id < db.nextSectionId ∧ s.canvas_id < db.nextCanvasId) ∧
  (∀ n ∈ db.notes, n.id < db.nextNoteId ∧ n.section_id < db.nextSectionId)

instance (db : DB) : Decidable db.wf := by
  unfold DB.wf
  infer_instance

/-! ### Closed forms of the section/note insertion loop -/

/-- Sequential closed form of the section loop: insert each section row
and then immediately its note rows.  The handlers defer each section's
notes to the following commit, but section and note ids come from
independent counters, so the final database is the one produced by this
sequential insertion (proved below). -/
def insertTree : DB → Nat → List SectionBase → DB
  | db, _, [] => db
  | db, cid, sec :: rest =>
      let r := insertSection db sec.id sec.title cid
      let d2 := flushNotes r.1 (sec.notes.map (fun n =>
        { note_id := n.id, content := n.content, type := n.type, section_id := r.2 }))
      insertTree d2 cid rest

/-- The section rows that the loop appends, ids consecutive from `sid0`. -/
def secRowsFrom : Nat → Nat → List SectionBase → List SectionModel
  | _, _, [] => []
  | sid0, cid, sec :: rest =>
      { id := sid0, section_id := sec.id, title := sec.title, canvas_id := cid }
        :: secRowsFrom (sid0 + 1) cid rest

/-- The note rows of one section, ids consecutive from `nid0`. -/
def noteRowsOf : Nat → Nat → List NoteBase → List NoteModel
  | _, _, [] => []
  | nid0, sid, n :: rest =>
      { id := nid0, note_id := n.id, content := n.content, type := n.type, section_id := sid }
        :: noteRowsOf (nid0 + 1) sid rest

/-- All note rows the loop appends, section ids from `sid0`, note ids
from `nid0`. -/
def noteRowsFrom : Nat → Nat → List SectionBase → List NoteModel
  | _, _, [] => []
  | nid0, sid0, sec :: rest =>
      noteRowsOf nid0 sid0 sec.notes ++
        noteRowsFrom (nid0 + sec.notes.length) (sid0 + 1) rest

/-- Total number of notes in a request body. -/
def totalNotes : List SectionBase → Nat
  | [] => 0
  | sec :: rest => sec.notes.length + totalNotes rest

/-! ### Spec-side observables -/

/-- HTTP status of a handler outcome: the success constructor is
reported uniformly as 200 here (the routes' actual success codes are
201/200/204); an `HTTPException` carries its own status code. -/
def statusOf {α : Type} : Except HTTPException α → Nat
  | .ok _ => 200
  | .error e => e.status_code

/-- Whether some canvas row with the given id exists in the database. -/
def existsCanvasB (db : DB) (cid : Nat) : Bool :=
  db.canvases.any (fun c => c.id == cid)

/-! ### Concrete fixtures -/

/-- The empty database; counters start at 1 as PostgreSQL sequences do. -/
def emptyDB : DB :=
  { canvases := [], sections := [], notes := [],
    nextCanvasId := 1, nextSectionId := 1, nextNoteId := 1 }

/-- A one-canvas, one-section, one-note database, exactly as a create
call on the empty database builds it. -/
def exampleDB : DB :=
  { canvases := [{ id := 1, name := "c1", created_at := "t0", updated_at := "t0" }]
    sections := [{ id := 1, section_id := "s1", title := "T1", canvas_id := 1 }]
    notes := [{ id := 1, note_id := "n1", content := "a", type := "regular", section_id := 1 }]
    nextCanvasId := 2, nextSectionId := 2, nextNoteId := 2 }

/-- A request body whose section carries a `section` field different
from its `id`. -/
def mismatchPayload : CanvasCreate :=
  { name := "c"
    sections := [{ id := "s1", title := "T", sectionField := "other", notes := [] }] }

/-- A request body replacing the tree with one new section and one note. -/
def replacePayload : CanvasUpdate :=
  { name := "c2"
    sections := [{ id := "s9", title := "T9", sectionField := "s9",
                   notes := [{ id := "n9", content := "z", type := "green" }] }] }

/-- A one-section, one-note create body. -/
def oneSectionPayload : CanvasCreate :=
  { name := "c"
    sections := [{ id := "s1", title := "T", sectionField := "s1",
                   notes := [{ id := "n1", content := "a", type := "regular" }] }] }

/-- In a successful canvas response every section's `section` field
equals its `id` field; errors are vacuously fine. -/
def respSectionsConsistent : Except HTTPException Canvas → Bool
  | .error _ => true
  | .ok c => c.sections.all (fun s => s.sectionField == s.id)

/-- The request body with every section's `section` field overwritten
by an arbitrary string. -/
def overwriteSectionField (x : String) (p : CanvasBase) : CanvasBase :=
  { p with sections := p.sections.map (fun s => { s with sectionField := x }) }

/-- The create response at the concrete C10 witness input. -/
def c10CreateResp : Canvas :=
  { id := 2, name := "c2", created_at := "t5", updated_at := "t5",
    sections := [{ id := "s9", title := "T9", sectionField := "s9",
                   notes := [{ id := "n9", content := "z", type := "green" }] }] }

/-- The update response at the concrete C10 witness input. -/
def c10UpdateResp : Canvas :=
  { id := 1, name := "c2", created_at := "t0", updated_at := "t5",
    sections := [{ id := "s9", title := "T9", sectionField := "s9",
                   notes := [{ id := "n9", content := "z", type := "green" }] }] }

/-! ### Lemmas -/

lemma flushNotes_map (db : DB) (sid : Nat) (ns : List NoteBase) :
    flushNotes db (ns.map (fun n =>
        { note_id := n.id, content := n.content, type := n.type, section_id := sid })) =
      { db with
          notes := db.notes ++ noteRowsOf db.nextNoteId sid ns
          nextNoteId := db.nextNoteId + ns.length } := by
  induction ns generalizing db with
  | nil => simp [flushNotes, noteRowsOf]
  | cons n rest ih =>
      simp only [List.map_cons, flushNotes, insertNote, noteRowsOf, ih, List.length_cons]
      have h1 : db.nextNoteId + 1 + rest.length = db.nextNoteId + (rest.length + 1) := by omega
      simp [List.append_assoc, h1]

lemma insertTree_eq (db : DB) (cid : Nat) (secs : List SectionBase) :
    insertTree db cid secs =
      { db with
          sections := db.sections ++ secRowsFrom db.nextSectionId cid secs
          notes := db.notes ++ noteRowsFrom db.nextNoteId db.nextSectionId secs
          nextSectionId := db.nextSectionId + secs.length
          nextNoteId := db.nextNoteId + totalNotes secs } := by
  induction secs generalizing db with
  | nil => simp [insertTree, secRowsFrom, noteRowsFrom, totalNotes]
  | cons sec rest ih =>
      simp only [insertTree, insertSection, flushNotes_map, ih, secRowsFrom, noteRowsFrom,
        totalNotes, List.length_cons]
      have h1 : db.nextSectionId + 1 + rest.length = db.nextSectionId + (rest.length + 1) := by
        omega
      simp [List.append_assoc, h1, Nat.add_assoc]

lemma foldl_sectionLoopStep_db (cid : Nat) (secs : List SectionBase) (st : SessionState) :
    flushNotes (secs.foldl (sectionLoopStep cid) st).db
        (secs.foldl (sectionLoopStep cid) st).pending
      = insertTree (flushNotes st.db st.pending) cid secs := by
  induction secs generalizing st with
  | nil => rfl
  | cons sec rest ih =>
      rw [List.foldl_cons, ih]
      simp [sectionLoopStep, insertTree]

lemma foldl_sectionLoopStep_trace_length (cid : Nat) (secs : List SectionBase)
    (st : SessionState) :
    (secs.foldl (sectionLoopStep cid) st).trace.length = st.trace.length + secs.length := by
  induction secs generalizing st with
  | nil => rfl
  | cons sec rest ih =>
      rw [List.foldl_cons, ih]
      simp [sectionLoopStep]
      omega

lemma foldl_sectionLoopStep_trace_head (cid : Nat) (secs : List SectionBase)
    (st : SessionState) (h : st.trace ≠ []) :
    (secs.foldl (sectionLoopStep cid) st).trace.head? = st.trace.head? := by
  induction secs generalizing st with
  | nil => rfl
  | cons sec rest ih =>
      rw [List.foldl_cons, ih]
      · cases htr : st.trace with
        | nil => exact absurd htr h
        | cons a l => simp [sectionLoopStep, htr]
      · simp [sectionLoopStep]

lemma mem_secRowsFrom {sid0 cid : Nat} {secs : List SectionBase} {s : SectionModel}
    (h : s ∈ secRowsFrom sid0 cid secs) : sid0 ≤ s.id ∧ s.canvas_id = cid := by
  induction secs generalizing sid0 with
  | nil => simp [secRowsFrom] at h
  | cons sec rest ih =>
      simp only [secRowsFrom, List.mem_cons] at h
      rcases h with h | h
      · subst h; exact ⟨Nat.le_refl _, rfl⟩
      · have := ih h
        exact ⟨Nat.le_of_succ_le this.1, this.2⟩

lemma mem_noteRowsOf {nid0 sid : Nat} {ns : List NoteBase} {n : NoteModel}
    (h : n ∈ noteRowsOf nid0 sid ns) : n.section_id = sid := by
  induction ns generalizing nid0 with
  | nil => simp [noteRowsOf] at h
  | cons x rest ih =>
      simp only [noteRowsOf, List.mem_cons] at h
      rcases h with h | h
      · subst h; rfl
      · exact ih h

lemma mem_noteRowsFrom {nid0 sid0 : Nat} {secs : List SectionBase} {n : NoteModel}
    (h : n ∈ noteRowsFrom nid0 sid0 secs) : sid0 ≤ n.section_id := by
  induction secs generalizing nid0 sid0 with
  | nil => simp [noteRowsFrom] at h
  | cons sec rest ih =>
      simp only [noteRowsFrom, List.mem_append] at h
      rcases h with h | h
      · exact (mem_noteRowsOf h).ge
      · exact Nat.le_of_succ_le (ih h)

lemma noteRowsOf_map_out (nid0 sid : Nat) (ns : List NoteBase) :
    (noteRowsOf nid0 sid ns).map (fun n =>
        ({ id := n.note_id, content := n.content, type := n.type } : NoteBase)) = ns := by
  induction ns generalizing nid0 with
  | nil => rfl
  | cons x rest ih => simp [noteRowsOf, ih]

lemma noteRowsOf_filter_self (nid0 sid : Nat) (ns : List NoteBase) :
    (noteRowsOf nid0 sid ns).filter (fun n => n.section_id == sid) =
      noteRowsOf nid0 sid ns := by
  rw [List.filter_eq_self]
  intro n hn
  simp [mem_noteRowsOf hn]

lemma readback_sections (oldNotes : List NoteModel) (nid0 sid0 cid : Nat)
    (secs : List SectionBase) (hold : ∀ n ∈ oldNotes, n.section_id < sid0) :
    (secRowsFrom sid0 cid secs).map (fun s =>
      ({ id := s.section_id, title := s.title, sectionField := s.section_id,
         notes := ((oldNotes ++ noteRowsFrom nid0 sid0 secs).filter
            (fun n => n.section_id == s.id)).map
            (fun n => { id := n.note_id, content := n.content, type := n.type }) } : SectionBase))
      = secs.map (fun s => { s with sectionField := s.id }) := by
  induction secs generalizing oldNotes nid0 sid0 with
  | nil => rfl
  | cons sec rest ih =>
      simp only [secRowsFrom, noteRowsFrom, List.map_cons]
      congr 1
      · have h1 : oldNotes.filter (fun n => n.section_id == sid0) = [] := by
          rw [List.filter_eq_nil_iff]
          intro n hn
          have := hold n hn
          simp only [beq_iff_eq]
          omega
        have h2 : (noteRowsFrom (nid0 + sec.notes.length) (sid0 + 1) rest).filter
            (fun n => n.section_id == sid0) = [] := by
          rw [List.filter_eq_nil_iff]
          intro n hn
          have := mem_noteRowsFrom hn
          simp only [beq_iff_eq]
          omega
        simp only [List.filter_append, h1, h2, noteRowsOf_filter_self,
          List.nil_append, List.append_nil, noteRowsOf_map_out]
      · have hassoc : oldNotes ++ (noteRowsOf nid0 sid0 sec.notes ++
            noteRowsFrom (nid0 + sec.notes.length) (sid0 + 1) rest)
            = (oldNotes ++ noteRowsOf nid0 sid0 sec.notes) ++
              noteRowsFrom (nid0 + sec.notes.length) (sid0 + 1) rest := by
          simp [List.append_assoc]
        rw [hassoc]
        refine ih _ _ _ ?_
        intro n hn
        rcases List.mem_append.mp hn with h | h
        · exact Nat.lt_succ_of_lt (hold n h)
        · simp [mem_noteRowsOf h]

lemma get_canvas_insertTree (db1 : DB) (cid : Nat) (secs : List SectionBase)
    (row : CanvasModel) (hfind : db1.findCanvas cid = some row) (hrow : row.id = cid)
    (hsecfresh : ∀ s ∈ db1.sections, ¬ s.canvas_id = cid)
    (hnotes : ∀ n ∈ db1.notes, n.section_id < db1.nextSectionId) :
    get_canvas (insertTree db1 cid secs) cid = .ok
      { id := row.id, name := row.name, created_at := row.created_at,
        updated_at := row.updated_at,
        sections := secs.map (fun s => { s with sectionField := s.id }) } := by
  have h1 : (insertTree db1 cid secs).findCanvas cid = some row := by
    rw [insertTree_eq]
    exact hfind
  have h2 : db1.sections.filter (fun s => s.canvas_id == cid) = [] := by
    rw [List.filter_eq_nil_iff]
    intro s hs
    simpa using hsecfresh s hs
  have h3 : (secRowsFrom db1.nextSectionId cid secs).filter (fun s => s.canvas_id == cid)
      = secRowsFrom db1.nextSectionId cid secs := by
    rw [List.filter_eq_self]
    intro s hs
    simp [(mem_secRowsFrom hs).2]
  simp only [get_canvas, h1]
  rw [Except.ok.injEq, Canvas.mk.injEq]
  refine ⟨rfl, rfl, rfl, rfl, ?_⟩
  have hsections : (insertTree db1 cid secs).canvasSections row.id
      = secRowsFrom db1.nextSectionId cid secs := by
    rw [hrow, DB.canvasSections, insertTree_eq]
    simp only [List.filter_append, h2, h3, List.nil_append]
  rw [hsections]
  have hnoteseq : (insertTree db1 cid secs).notes
      = db1.notes ++ noteRowsFrom db1.nextNoteId db1.nextSectionId secs := by
    rw [insertTree_eq]
  simp only [DB.sectionNotes, hnoteseq]
  exact readback_sections db1.notes db1.nextNoteId db1.nextSectionId cid secs hnotes

/-! ### Closed forms of the handlers -/

lemma create_canvas_db_eq (db0 : DB) (now : String) (p : CanvasCreate) :
    (create_canvas db0 now p).db =
      insertTree (insertCanvas db0 p.name now now).1 db0.nextCanvasId p.sections := by
  simp only [create_canvas]
  rw [foldl_sectionLoopStep_db]
  rfl

lemma create_canvas_response_rfl (db0 : DB) (now : String) (p : CanvasCreate) :
    (create_canvas db0 now p).response
      = get_canvas (create_canvas db0 now p).db db0.nextCanvasId := rfl

lemma insertCanvas_findCanvas (db0 : DB) (now name : String) (hwf : db0.wf) :
    (insertCanvas db0 name now now).1.findCanvas db0.nextCanvasId =
      some { id := db0.nextCanvasId, name := name, created_at := now, updated_at := now } := by
  simp only [insertCanvas, DB.findCanvas]
  rw [List.find?_append]
  have hnone : db0.canvases.find? (fun c => c.id == db0.nextCanvasId) = none := by
    rw [List.find?_eq_none]
    intro c hc
    have := hwf.1 c hc
    simp only [beq_iff_eq]
    omega
  rw [hnone]
  simp

lemma create_canvas_response_eq (db0 : DB) (now : String) (p : CanvasCreate) (hwf : db0.wf) :
    (create_canvas db0 now p).response = .ok
      { id := db0.nextCanvasId, name := p.name, created_at := now, updated_at := now,
        sections := p.sections.map (fun s => { s with sectionField := s.id }) } := by
  obtain ⟨hwc, hws, hwn⟩ := hwf
  rw [create_canvas_response_rfl, create_canvas_db_eq]
  exact get_canvas_insertTree (insertCanvas db0 p.name now now).1 db0.nextCanvasId p.sections
    _ (insertCanvas_findCanvas db0 now p.name ⟨hwc, hws, hwn⟩) rfl
    (fun s hs => by have := (hws s hs).2; omega)
    (fun n hn => (hwn n hn).2)

lemma update_canvas_db_eq (db0 : DB) (now : String) (cid : Nat) (p : CanvasUpdate)
    (row : CanvasModel) (hfind : db0.findCanvas cid = some row) :
    (update_canvas db0 now cid p).db =
      insertTree (bulkDeleteSections (setCanvasNameUpdated db0 cid p.name now) cid)
        cid p.sections := by
  simp only [update_canvas, hfind]
  rw [foldl_sectionLoopStep_db]
  rfl

lemma update_canvas_response_rfl (db0 : DB) (now : String) (cid : Nat) (p : CanvasUpdate)
    (row : CanvasModel) (hfind : db0.findCanvas cid = some row) :
    (update_canvas db0 now cid p).response
      = get_canvas (update_canvas db0 now cid p).db cid := by
  simp only [update_canvas, hfind]

lemma findCanvas_setCanvasNameUpdated (db0 : DB) (cid : Nat) (name now : String)
    (row : CanvasModel) (hfind : db0.findCanvas cid = some row) :
    (setCanvasNameUpdated db0 cid name now).findCanvas cid
      = some { row with name := name, updated_at := now } := by
  have hfind2 : db0.canvases.find? (fun c => c.id == cid) = some row := hfind
  have hrowid0 := List.find?_some hfind2
  have hrowid : (row.id == cid) = true := hrowid0
  simp only [setCanvasNameUpdated, DB.findCanvas]
  rw [List.find?_map]
  have hp : ((fun c => c.id == cid) ∘ (fun c =>
      if c.id == cid then { c with name := name, updated_at := now } else c))
      = fun c : CanvasModel => c.id == cid := by
    funext c
    by_cases h : c.id = cid <;> simp [h]
  rw [hp, hfind2]
  have heq : row.id = cid := by simpa using hrowid
  simp [heq]

lemma update_canvas_response_eq (db0 : DB) (now : String) (cid : Nat) (p : CanvasUpdate)
    (row : CanvasModel) (hwf : db0.wf) (hfind : db0.findCanvas cid = some row) :
    (update_canvas db0 now cid p).response = .ok
      { id := row.id, name := p.name, created_at := row.created_at, updated_at := now,
        sections := p.sections.map (fun s => { s with sectionField := s.id }) } := by
  obtain ⟨hwc, hws, hwn⟩ := hwf
  have hfind2 : db0.canvases.find? (fun c => c.id == cid) = some row := hfind
  have hrowid0 := List.find?_some hfind2
  have hrowid : row.id = cid := by simpa using hrowid0
  rw [update_canvas_response_rfl db0 now cid p row hfind,
    update_canvas_db_eq db0 now cid p row hfind]
  have hd1 : (bulkDeleteSections (setCanvasNameUpdated db0 cid p.name now) cid).findCanvas cid
      = some { row with name := p.name, updated_at := now } :=
    findCanvas_setCanvasNameUpdated db0 cid p.name now row hfind
  exact get_canvas_insertTree _ cid p.sections _ hd1 hrowid
    (fun s hs => by
      have hs2 := List.mem_filter.mp hs
      simpa using hs2.2)
    (fun n hn => (hwn n hn).2)

lemma update_canvas_db_canvases (db : DB) (now : String) (cid : Nat) (p : CanvasUpdate)
    (row : CanvasModel) (hfind : db.findCanvas cid = some row) :
    (update_canvas db now cid p).db.canvases
      = db.canvases.map (fun c =>
          if c.id == cid then { c with name := p.name, updated_at := now } else c) := by
  rw [update_canvas_db_eq db now cid p row hfind, insertTree_eq]
  rfl

lemma update_canvas_db_sections (db : DB) (now : String) (cid : Nat) (p : CanvasUpdate)
    (row : CanvasModel) (hfind : db.findCanvas cid = some row) :
    (update_canvas db now cid p).db.sections
      = db.sections.filter (fun s => !(s.canvas_id == cid))
          ++ secRowsFrom db.nextSectionId cid p.sections := by
  rw [update_canvas_db_eq db now cid p row hfind, insertTree_eq]
  rfl

lemma update_canvas_db_notes (db : DB) (now : String) (cid : Nat) (p : CanvasUpdate)
    (row : CanvasModel) (hfind : db.findCanvas cid = some row) :
    (update_canvas db now cid p).db.notes
      = db.notes ++ noteRowsFrom db.nextNoteId db.nextSectionId p.sections := by
  rw [update_canvas_db_eq db now cid p row hfind, insertTree_eq]
  rfl

lemma update_canvas_findCanvas (db : DB) (now : String) (cid : Nat) (p : CanvasUpdate)
    (row : CanvasModel) (hfind : db.findCanvas cid = some row) :
    (update_canvas db now cid p).db.findCanvas cid
      = some { row with name := p.name, updated_at := now } := by
  rw [update_canvas_db_eq db now cid p row hfind, insertTree_eq]
  exact findCanvas_setCanvasNameUpdated db cid p.name now row hfind

lemma update_canvas_findCanvas_other (db : DB) (now : String) (cid c2 : Nat)
    (p : CanvasUpdate) (row : CanvasModel) (hfind : db.findCanvas cid = some row)
    (hne : ¬ c2 = cid) :
    (update_canvas db now cid p).db.findCanvas c2 = db.findCanvas c2 := by
  rw [DB.findCanvas, update_canvas_db_canvases db now cid p row hfind, List.find?_map]
  have hp : ((fun c => c.id == c2) ∘ (fun c =>
      if c.id == cid then { c with name := p.name, updated_at := now } else c))
      = fun c : CanvasModel => c.id == c2 := by
    funext c
    by_cases h : c.id = cid <;> simp [h]
  rw [hp]
  rw [DB.findCanvas]
  cases hf2 : db.canvases.find? (fun c => c.id == c2) with
  | none => rfl
  | some r =>
      have hr := List.find?_some hf2
      have hrid : r.id = c2 := by simpa using hr
      have hne2 : ¬ r.id = cid := by omega
      simp [hne2]

lemma findCanvas_eq_none_of_not_exists (db : DB) (cid : Nat)
    (h : existsCanvasB db cid = false) : db.findCanvas cid = none := by
  rw [DB.findCanvas, List.find?_eq_none]
  intro c hc hcc
  have : db.canvases.any (fun c => c.id == cid) = true := List.any_eq_true.mpr ⟨c, hc, hcc⟩
  rw [existsCanvasB] at h
  rw [h] at this
  exact Bool.false_ne_true this

lemma exists_of_findCanvas_some (db : DB) (cid : Nat) (row : CanvasModel)
    (hfind : db.findCanvas cid = some row) : existsCanvasB db cid = true := by
  have hfind2 : db.canvases.find? (fun c => c.id == cid) = some row := hfind
  have hmem := List.mem_of_find?_eq_some hfind2
  have hpred := List.find?_some hfind2
  exact List.any_eq_true.mpr ⟨row, hmem, hpred⟩

lemma findCanvas_isSome_of_exists (db : DB) (cid : Nat)
    (h : existsCanvasB db cid = true) : ∃ row, db.findCanvas cid = some row := by
  cases hf : db.findCanvas cid with
  | some row => exact ⟨row, rfl⟩
  | none =>
      obtain ⟨c, hc, hcc⟩ := List.any_eq_true.mp h
      have : db.canvases.find? (fun c => c.id == cid) = none := hf
      rw [List.find?_eq_none] at this
      exact absurd hcc (this c hc)

lemma sectionNotes_update_other (db : DB) (now : String) (cid : Nat) (p : CanvasUpdate)
    (row : CanvasModel) (hfind : db.findCanvas cid = some row)
    (sid : Nat) (hsid : sid < db.nextSectionId) :
    (update_canvas db now cid p).db.sectionNotes sid = db.sectionNotes sid := by
  rw [DB.sectionNotes, DB.sectionNotes, update_canvas_db_notes db now cid p row hfind,
    List.filter_append]
  have h2 : (noteRowsFrom db.nextNoteId db.nextSectionId p.sections).filter
      (fun n => n.section_id == sid) = [] := by
    rw [List.filter_eq_nil_iff]
    intro n hn
    have := mem_noteRowsFrom hn
    simp only [beq_iff_eq]
    omega
  rw [h2, List.append_nil]

lemma canvasSections_update_other (db : DB) (now : String) (cid : Nat) (p : CanvasUpdate)
    (row : CanvasModel) (hfind : db.findCanvas cid = some row)
    (c2 : Nat) (hne : ¬ c2 = cid) :
    (update_canvas db now cid p).db.canvasSections c2 = db.canvasSections c2 := by
  rw [DB.canvasSections, DB.canvasSections, update_canvas_db_sections db now cid p row hfind,
    List.filter_append]
  have h1 : (secRowsFrom db.nextSectionId cid p.sections).filter
      (fun s => s.canvas_id == c2) = [] := by
    rw [List.filter_eq_nil_iff]
    intro s hs
    have := (mem_secRowsFrom hs).2
    simp only [beq_iff_eq]
    omega
  rw [h1, List.append_nil, List.filter_filter]
  apply List.filter_congr
  intro s hs
  by_cases h : s.canvas_id = c2
  · have : ¬ s.canvas_id = cid := by omega
    simp [h, this]
    exact hne
  · simp [h]

lemma get_canvas_update_other (db : DB) (now : String) (cid c2 : Nat) (p : CanvasUpdate)
    (row : CanvasModel) (hwf : db.wf) (hfind : db.findCanvas cid = some row)
    (hne : ¬ c2 = cid) :
    get_canvas (update_canvas db now cid p).db c2 = get_canvas db c2 := by
  obtain ⟨hwc, hws, hwn⟩ := hwf
  have hfc2 := update_canvas_findCanvas_other db now cid c2 p row hfind hne
  cases hf : db.findCanvas c2 with
  | none => simp only [get_canvas, hfc2, hf]
  | some r =>
      have hr := List.find?_some (show db.canvases.find? (fun c => c.id == c2) = some r from hf)
      have hrid : r.id = c2 := by simpa using hr
      have hne2 : ¬ r.id = cid := by omega
      simp only [get_canvas, hfc2, hf]
      rw [Except.ok.injEq, Canvas.mk.injEq]
      refine ⟨rfl, rfl, rfl, rfl, ?_⟩
      rw [canvasSections_update_other db now cid p row hfind r.id hne2]
      apply List.map_congr_left
      intro s hs
      have hmem : s ∈ db.sections := (List.mem_filter.mp hs).1
      have hsid : s.id < db.nextSectionId := (hws s hmem).1
      rw [sectionNotes_update_other db now cid p row hfind s.id hsid]

lemma delete_canvas_of_found (db : DB) (cid : Nat) (row : CanvasModel)
    (hfind : db.findCanvas cid = some row) :
    delete_canvas db cid =
      ({ db with
          canvases := db.canvases.filter (fun c => !(c.id == cid))
          sections := db.sections.filter (fun s => !(s.canvas_id == cid))
          notes := db.notes.filter (fun n =>
            !(((db.canvasSections cid).map (fun s => s.id)).contains n.section_id)) },
       .ok ()) := by
  simp only [delete_canvas, hfind]

/-! ### Claims -/

/-- C1, counterexample: create-then-read does not return every section
field value unchanged.  A request section with `id = "s1"` but
`section = "other"` is read back with `section = "s1"`: the response
section list differs from the request section list. -/
theorem C1_roundtrip_counterexample :
    get_canvas (create_canvas emptyDB "t" mismatchPayload).db 1 =
      .ok { id := 1, name := "c", created_at := "t", updated_at := "t",
            sections := [{ id := "s1", title := "T", sectionField := "s1", notes := [] }] } ∧
    ¬ ([{ id := "s1", title := "T", sectionField := "s1", notes := [] }] : List SectionBase)
        = mismatchPayload.sections := by
  decide

/-- C1 (amended): creating a canvas with N sections each holding M notes
and reading it back returns exactly the N sections with all note values
and every section's `id` and `title` unchanged; the only changed value
is each returned section's `section` field, which equals the request
section's `id` (the stored slot key) instead of the request's `section`
value. -/
theorem C1_roundtrip_amended (db0 : DB) (now : String) (p : CanvasCreate) (hwf : db0.wf) :
    get_canvas (create_canvas db0 now p).db db0.nextCanvasId = .ok
        { id := db0.nextCanvasId, name := p.name, created_at := now, updated_at := now,
          sections := p.sections.map (fun s => { s with sectionField := s.id }) } ∧
    (p.sections.map (fun s => { s with sectionField := s.id })).map SectionBase.notes
        = p.sections.map SectionBase.notes := by
  constructor
  · rw [← create_canvas_response_rfl]
    exact create_canvas_response_eq db0 now p hwf
  · rw [List.map_map]
    exact List.map_congr_left (fun s _ => rfl)

/-- Witness for `C1_roundtrip_amended` at a concrete input. -/
theorem C1_roundtrip_amended_witness :
    DB.wf emptyDB ∧
    (get_canvas (create_canvas emptyDB "t" mismatchPayload).db emptyDB.nextCanvasId = .ok
        { id := emptyDB.nextCanvasId, name := mismatchPayload.name, created_at := "t",
          updated_at := "t",
          sections := mismatchPayload.sections.map (fun s => { s with sectionField := s.id }) } ∧
     (mismatchPayload.sections.map (fun s => { s with sectionField := s.id })).map
          SectionBase.notes
        = mismatchPayload.sections.map SectionBase.notes) :=
  ⟨by decide, C1_roundtrip_amended emptyDB "t" mismatchPayload (by decide)⟩

/-- C2: at the failing input, PUT's bulk section delete removes the old
section row but leaves that section's note row in the notes table (the
bulk `Query.delete()` bypasses the ORM cascade), so the old subtree's
note rows are not deleted as the claim states. -/
theorem C2_old_note_row_survives :
    ((update_canvas exampleDB "t1" 1 replacePayload).db.sections.any
        (fun s => s.id == 1)) = false ∧
    ({ id := 1, note_id := "n1", content := "a", type := "regular", section_id := 1 } : NoteModel)
        ∈ (update_canvas exampleDB "t1" 1 replacePayload).db.notes := by
  decide

/-- C3: deleting an existing canvas succeeds, removes the canvas row,
all of its section rows, and all of those sections' note rows, and a
subsequent GET of the id returns the 404 error. -/
theorem C3_delete_cascades (db : DB) (cid : Nat) (h : existsCanvasB db cid = true) :
    (delete_canvas db cid).2 = .ok () ∧
    (delete_canvas db cid).1.canvases.any (fun c => c.id == cid) = false ∧
    (delete_canvas db cid).1.sections.any (fun s => s.canvas_id == cid) = false ∧
    (db.canvasSections cid).all (fun s =>
      !((delete_canvas db cid).1.notes.any (fun n => n.section_id == s.id))) = true ∧
    get_canvas (delete_canvas db cid).1 cid
      = .error { status_code := 404, detail := "Canvas not found" } := by
  obtain ⟨row, hfind⟩ := findCanvas_isSome_of_exists db cid h
  rw [delete_canvas_of_found db cid row hfind]
  refine ⟨rfl, ?_, ?_, ?_, ?_⟩
  · rw [List.any_eq_false]
    intro c hc
    have h2 := (List.mem_filter.mp hc).2
    simpa using h2
  · rw [List.any_eq_false]
    intro s hs
    have h2 := (List.mem_filter.mp hs).2
    simpa using h2
  · rw [List.all_eq_true]
    intro s hs
    rw [Bool.not_eq_true', List.any_eq_false]
    intro n hn
    have h3 := (List.mem_filter.mp hn).2
    have hsid : s.id ∈ (db.canvasSections cid).map (fun s => s.id) :=
      List.mem_map.mpr ⟨s, hs, rfl⟩
    intro hcontra
    have hEq : n.section_id = s.id := by simpa using hcontra
    have hnotmem : ¬ n.section_id ∈ ((db.canvasSections cid).map (fun s => s.id)) := by
      intro hmem
      have hcontains : ((db.canvasSections cid).map (fun s => s.id)).contains n.section_id
          = true := List.elem_iff.mpr hmem
      rw [Bool.not_eq_true'] at h3
      rw [h3] at hcontains
      exact Bool.false_ne_true hcontains
    exact hnotmem (hEq ▸ hsid)
  · have hnone : (db.canvases.filter (fun c => !(c.id == cid))).find?
        (fun c => c.id == cid) = none := by
      rw [List.find?_eq_none]
      intro c hc
      have h2 := (List.mem_filter.mp hc).2
      simpa using h2
    simp only [get_canvas, DB.findCanvas, hnone]

/-- Witness for `C3_delete_cascades` at a concrete database. -/
theorem C3_delete_cascades_witness :
    existsCanvasB exampleDB 1 = true ∧
    ((delete_canvas exampleDB 1).2 = .ok () ∧
     (delete_canvas exampleDB 1).1.canvases.any (fun c => c.id == 1) = false ∧
     (delete_canvas exampleDB 1).1.sections.any (fun s => s.canvas_id == 1) = false ∧
     (exampleDB.canvasSections 1).all (fun s =>
       !((delete_canvas exampleDB 1).1.notes.any (fun n => n.section_id == s.id))) = true ∧
     get_canvas (delete_canvas exampleDB 1).1 1
       = .error { status_code := 404, detail := "Canvas not found" }) :=
  ⟨by decide, C3_delete_cascades exampleDB 1 (by decide)⟩

/-- C4: for every canvas id, GET, PUT and DELETE return the 404
Canvas-not-found error exactly when no canvas row with that id exists,
and succeed otherwise; the handlers themselves produce no other error. -/
theorem C4_not_found_iff_missing (db : DB) (now : String) (cid : Nat) (p : CanvasUpdate) :
    statusOf (get_canvas db cid) = (if existsCanvasB db cid then 200 else 404) ∧
    statusOf (update_canvas db now cid p).response
        = (if existsCanvasB db cid then 200 else 404) ∧
    statusOf (delete_canvas db cid).2 = (if existsCanvasB db cid then 200 else 404) := by
  cases hf : db.findCanvas cid with
  | none =>
      have hex : existsCanvasB db cid = false := by
        cases hex2 : existsCanvasB db cid
        · rfl
        · obtain ⟨row, hr⟩ := findCanvas_isSome_of_exists db cid hex2
          rw [hf] at hr
          cases hr
      refine ⟨?_, ?_, ?_⟩
      · simp [get_canvas, hf, hex, statusOf]
      · simp [update_canvas, hf, hex, statusOf]
      · simp [delete_canvas, hf, hex, statusOf]
  | some row =>
      have hex : existsCanvasB db cid = true := exists_of_findCanvas_some db cid row hf
      have hup := update_canvas_findCanvas db now cid p row hf
      refine ⟨?_, ?_, ?_⟩
      · simp [get_canvas, hf, hex, statusOf]
      · rw [update_canvas_response_rfl db now cid p row hf]
        simp [get_canvas, hup, hex, statusOf]
      · simp [delete_canvas, hf, hex, statusOf]

/-- C5: when no canvas with the id exists, PUT and DELETE return the
404 error with the database (and, for PUT, the commit trace) untouched:
the check precedes every mutation. -/
theorem C5_missing_id_no_mutation (db : DB) (now : String) (cid : Nat)
    (p : CanvasUpdate) (h : existsCanvasB db cid = false) :
    update_canvas db now cid p =
      { db := db, trace := [],
        response := .error { status_code := 404, detail := "Canvas not found" } } ∧
    delete_canvas db cid
      = (db, .error { status_code := 404, detail := "Canvas not found" }) := by
  have hfc := findCanvas_eq_none_of_not_exists db cid h
  exact ⟨by simp [update_canvas, hfc], by simp [delete_canvas, hfc]⟩

/-- Witness for `C5_missing_id_no_mutation` at a concrete input. -/
theorem C5_missing_id_no_mutation_witness :
    existsCanvasB emptyDB 7 = false ∧
    (update_canvas emptyDB "t" 7 replacePayload =
      { db := emptyDB, trace := [],
        response := .error { status_code := 404, detail := "Canvas not found" } } ∧
     delete_canvas emptyDB 7
      = (emptyDB, .error { status_code := 404, detail := "Canvas not found" })) :=
  ⟨by decide, C5_missing_id_no_mutation emptyDB "t" 7 replacePayload (by decide)⟩

/-- C6: the create handler takes one timestamp and stores it as both
`created_at` and `updated_at`; the response and the stored row agree. -/
theorem C6_created_equals_updated (db0 : DB) (now : String) (p : CanvasCreate)
    (hwf : db0.wf) :
    (∃ c, (create_canvas db0 now p).response = .ok c ∧
      c.created_at = now ∧ c.updated_at = now ∧ c.created_at = c.updated_at) ∧
    (∃ row, (create_canvas db0 now p).db.findCanvas db0.nextCanvasId = some row ∧
      row.created_at = now ∧ row.updated_at = now) := by
  constructor
  · exact ⟨_, create_canvas_response_eq db0 now p hwf, rfl, rfl, rfl⟩
  · refine ⟨⟨db0.nextCanvasId, p.name, now, now⟩, ?_, rfl, rfl⟩
    rw [create_canvas_db_eq, insertTree_eq]
    exact insertCanvas_findCanvas db0 now p.name hwf

/-- Witness for `C6_created_equals_updated` at a concrete input. -/
theorem C6_created_equals_updated_witness :
    DB.wf exampleDB ∧
    ((∃ c, (create_canvas exampleDB "t9" oneSectionPayload).response = .ok c ∧
       c.created_at = "t9" ∧ c.updated_at = "t9" ∧ c.created_at = c.updated_at) ∧
     (∃ row, (create_canvas exampleDB "t9" oneSectionPayload).db.findCanvas
          exampleDB.nextCanvasId = some row ∧
       row.created_at = "t9" ∧ row.updated_at = "t9")) :=
  ⟨by decide, C6_created_equals_updated exampleDB "t9" oneSectionPayload (by decide)⟩

/-- C7: a successful PUT rewrites only the target canvas row's `name`
and `updated_at` (its `id` and `created_at` are kept) and replaces its
visible subtree; every other canvas id reads back exactly as before. -/
theorem C7_update_frame (db : DB) (now : String) (cid c2 : Nat) (p : CanvasUpdate)
    (row : CanvasModel) (hwf : db.wf) (hfind : db.findCanvas cid = some row)
    (hne : ¬ c2 = cid) :
    (update_canvas db now cid p).db.findCanvas cid
        = some { row with name := p.name, updated_at := now } ∧
    ({ row with name := p.name, updated_at := now } : CanvasModel).id = row.id ∧
    ({ row with name := p.name, updated_at := now } : CanvasModel).created_at
        = row.created_at ∧
    get_canvas (update_canvas db now cid p).db c2 = get_canvas db c2 :=
  ⟨update_canvas_findCanvas db now cid p row hfind, rfl, rfl,
    get_canvas_update_other db now cid c2 p row hwf hfind hne⟩

/-- Witness for `C7_update_frame` at a concrete input. -/
theorem C7_update_frame_witness :
    DB.wf exampleDB ∧
    exampleDB.findCanvas 1
      = some { id := 1, name := "c1", created_at := "t0", updated_at := "t0" } ∧
    ¬ (2 : Nat) = 1 ∧
    ((update_canvas exampleDB "t1" 1 replacePayload).db.findCanvas 1
        = some { id := 1, name := replacePayload.name, created_at := "t0",
                 updated_at := "t1" } ∧
     ({ id := 1, name := replacePayload.name, created_at := "t0",
        updated_at := "t1" } : CanvasModel).id = 1 ∧
     ({ id := 1, name := replacePayload.name, created_at := "t0",
        updated_at := "t1" } : CanvasModel).created_at = "t0" ∧
     get_canvas (update_canvas exampleDB "t1" 1 replacePayload).db 2
        = get_canvas exampleDB 2) :=
  ⟨by decide, by decide, by decide,
    C7_update_frame exampleDB "t1" 1 2 replacePayload
      { id := 1, name := "c1", created_at := "t0", updated_at := "t0" }
      (by decide) (by decide) (by decide)⟩

lemma create_canvas_trace (db0 : DB) (now : String) (p : CanvasCreate) :
    (create_canvas db0 now p).trace.length = p.sections.length + 2 ∧
    (create_canvas db0 now p).trace.head? = some (insertCanvas db0 p.name now now).1 ∧
    (create_canvas db0 now p).trace.getLast? = some (create_canvas db0 now p).db := by
  refine ⟨?_, ?_, ?_⟩
  · simp only [create_canvas]
    rw [List.length_append, foldl_sectionLoopStep_trace_length]
    simp only [List.length_singleton, List.length_cons, List.length_nil]
    omega
  · simp only [create_canvas]
    rw [List.head?_append, foldl_sectionLoopStep_trace_head]
    · rfl
    · simp
  · simp only [create_canvas]
    rw [List.getLast?_concat]

lemma update_canvas_trace (db0 : DB) (now : String) (cid : Nat) (p : CanvasUpdate)
    (row : CanvasModel) (hfind : db0.findCanvas cid = some row) :
    (update_canvas db0 now cid p).trace.length = p.sections.length + 2 ∧
    (update_canvas db0 now cid p).trace.head?
        = some (bulkDeleteSections (setCanvasNameUpdated db0 cid p.name now) cid) ∧
    (update_canvas db0 now cid p).trace.getLast? = some (update_canvas db0 now cid p).db := by
  refine ⟨?_, ?_, ?_⟩
  · simp only [update_canvas, hfind]
    rw [List.length_append, foldl_sectionLoopStep_trace_length]
    simp only [List.length_singleton, List.length_cons, List.length_nil]
    omega
  · simp only [update_canvas, hfind]
    rw [List.head?_append, foldl_sectionLoopStep_trace_head]
    · rfl
    · simp
  · simp only [update_canvas, hfind]
    rw [List.getLast?_concat]

/-- C8, counterexample: the create handler's first `db.commit()` (line
151) durably commits the canvas row before any section or note row is
written.  The first committed snapshot of the one-section request
differs from both the initial and the final database, so a request that
fails after that commit leaves partially written rows durably
committed — the session is not holding all the work uncommitted. -/
theorem C8_partial_commit_counterexample :
    (create_canvas emptyDB "t" oneSectionPayload).trace.head? =
      some { canvases := [{ id := 1, name := "c", created_at := "t", updated_at := "t" }],
             sections := [], notes := [],
             nextCanvasId := 2, nextSectionId := 1, nextNoteId := 1 } ∧
    ¬ ({ canvases := [{ id := 1, name := "c", created_at := "t", updated_at := "t" }],
         sections := [], notes := [],
         nextCanvasId := 2, nextSectionId := 1, nextNoteId := 1 } : DB) = emptyDB ∧
    ¬ ({ canvases := [{ id := 1, name := "c", created_at := "t", updated_at := "t" }],
         sections := [], notes := [],
         nextCanvasId := 2, nextSectionId := 1, nextNoteId := 1 } : DB)
        = (create_canvas emptyDB "t" oneSectionPayload).db := by
  decide

/-- C8 (amended): the handlers commit incrementally rather than holding
the work: a create issues `sections.length + 2` commits whose first
snapshot already contains the new canvas row (and, for update, whose
first snapshot already carries the rename and the section bulk delete),
and whose last snapshot is the final database; work committed before a
midway failure is durable, only rows staged after the last commit are
lost, with no rollback logic. -/
theorem C8_incremental_commits (db0 : DB) (now : String) (cid : Nat) (p : CanvasBase)
    (row : CanvasModel) (hfind : db0.findCanvas cid = some row) :
    (create_canvas db0 now p).trace.length = p.sections.length + 2 ∧
    (create_canvas db0 now p).trace.head? = some (insertCanvas db0 p.name now now).1 ∧
    (create_canvas db0 now p).trace.getLast? = some (create_canvas db0 now p).db ∧
    (update_canvas db0 now cid p).trace.length = p.sections.length + 2 ∧
    (update_canvas db0 now cid p).trace.head?
        = some (bulkDeleteSections (setCanvasNameUpdated db0 cid p.name now) cid) ∧
    (update_canvas db0 now cid p).trace.getLast? = some (update_canvas db0 now cid p).db := by
  obtain ⟨h1, h2, h3⟩ := create_canvas_trace db0 now p
  obtain ⟨h4, h5, h6⟩ := update_canvas_trace db0 now cid p row hfind
  exact ⟨h1, h2, h3, h4, h5, h6⟩

/-- Witness for `C8_incremental_commits` at a concrete input. -/
theorem C8_incremental_commits_witness :
    exampleDB.findCanvas 1
      = some { id := 1, name := "c1", created_at := "t0", updated_at := "t0" } ∧
    ((create_canvas exampleDB "t1" replacePayload).trace.length
        = replacePayload.sections.length + 2 ∧
     (create_canvas exampleDB "t1" replacePayload).trace.head?
        = some (insertCanvas exampleDB replacePayload.name "t1" "t1").1 ∧
     (create_canvas exampleDB "t1" replacePayload).trace.getLast?
        = some (create_canvas exampleDB "t1" replacePayload).db ∧
     (update_canvas exampleDB "t1" 1 replacePayload).trace.length
        = replacePayload.sections.length + 2 ∧
     (update_canvas exampleDB "t1" 1 replacePayload).trace.head?
        = some (bulkDeleteSections
            (setCanvasNameUpdated exampleDB 1 replacePayload.name "t1") 1) ∧
     (update_canvas exampleDB "t1" 1 replacePayload).trace.getLast?
        = some (update_canvas exampleDB "t1" 1 replacePayload).db) :=
  ⟨by decide,
    C8_incremental_commits exampleDB "t1" 1 replacePayload
      { id := 1, name := "c1", created_at := "t0", updated_at := "t0" } (by decide)⟩

lemma create_canvas_ignores_sectionField (db0 : DB) (now : String) (p : CanvasBase)
    (x : String) :
    create_canvas db0 now (overwriteSectionField x p) = create_canvas db0 now p := by
  simp only [create_canvas, overwriteSectionField]
  rw [List.foldl_map]
  have hstep : (fun (st : SessionState) (y : SectionBase) =>
      sectionLoopStep (insertCanvas db0 p.name now now).2 st
        { id := y.id, title := y.title, sectionField := x, notes := y.notes })
      = sectionLoopStep (insertCanvas db0 p.name now now).2 := by
    funext st y
    rfl
  rw [hstep]

lemma update_canvas_ignores_sectionField (db0 : DB) (now : String) (cid : Nat)
    (p : CanvasBase) (x : String) :
    update_canvas db0 now cid (overwriteSectionField x p)
      = update_canvas db0 now cid p := by
  cases hf : db0.findCanvas cid with
  | none => simp only [update_canvas, hf]
  | some r =>
      simp only [update_canvas, overwriteSectionField, hf]
      rw [List.foldl_map]
      have hstep : (fun (st : SessionState) (y : SectionBase) =>
          sectionLoopStep cid st
            { id := y.id, title := y.title, sectionField := x, notes := y.notes })
          = sectionLoopStep cid := by
        funext st y
        rfl
      rw [hstep]

/-- C9: every section of a canvas response carries the stored slot key
in both `id` and `section`, so the two fields are always equal; and the
`section` field of a create or update request body is ignored — the
handlers' results are invariant under overwriting it. -/
theorem C9_section_field_ignored (db : DB) (now : String) (cid : Nat) (p : CanvasBase)
    (x : String) :
    respSectionsConsistent (get_canvas db cid) = true ∧
    create_canvas db now (overwriteSectionField x p) = create_canvas db now p ∧
    update_canvas db now cid (overwriteSectionField x p) = update_canvas db now cid p := by
  refine ⟨?_, create_canvas_ignores_sectionField db now p x,
    update_canvas_ignores_sectionField db now cid p x⟩
  cases hf : db.findCanvas cid with
  | none => simp [respSectionsConsistent, get_canvas, hf]
  | some r =>
      simp only [get_canvas, hf, respSectionsConsistent]
      rw [List.all_eq_true]
      intro s hs
      obtain ⟨srow, hmem, hrfl⟩ := List.mem_map.mp hs
      subst hrfl
      simp

lemma get_canvas_ok_id (db : DB) (cid : Nat) (c : Canvas)
    (h : get_canvas db cid = .ok c) : c.id = cid := by
  cases hf : db.findCanvas cid with
  | none => simp [get_canvas, hf] at h
  | some r =>
      have hr := List.find?_some
        (show db.canvases.find? (fun x => x.id == cid) = some r from hf)
      have hrid : r.id = cid := by simpa using hr
      simp only [get_canvas, hf] at h
      rw [Except.ok.injEq] at h
      rw [← h]
      exact hrid

/-- C10: the POST and PUT handlers build their response by calling the
GET handler on the database they just produced, so the response equals
an immediately subsequent GET of the same canvas id. -/
theorem C10_response_equals_subsequent_get (db0 : DB) (now : String) (cid : Nat)
    (p : CanvasBase) (c c2 : Canvas)
    (h1 : (create_canvas db0 now p).response = .ok c)
    (h2 : (update_canvas db0 now cid p).response = .ok c2) :
    get_canvas (create_canvas db0 now p).db c.id = .ok c ∧
    get_canvas (update_canvas db0 now cid p).db c2.id = .ok c2 := by
  constructor
  · rw [create_canvas_response_rfl] at h1
    have hid := get_canvas_ok_id _ _ _ h1
    rw [hid]
    exact h1
  · cases hf : db0.findCanvas cid with
    | none => simp [update_canvas, hf] at h2
    | some row =>
        rw [update_canvas_response_rfl db0 now cid p row hf] at h2
        have hid := get_canvas_ok_id _ _ _ h2
        rw [hid]
        exact h2

/-- Witness for `C10_response_equals_subsequent_get` at a concrete input. -/
theorem C10_response_equals_subsequent_get_witness :
    (create_canvas exampleDB "t5" replacePayload).response = .ok c10CreateResp ∧
    (update_canvas exampleDB "t5" 1 replacePayload).response = .ok c10UpdateResp ∧
    (get_canvas (create_canvas exampleDB "t5" replacePayload).db c10CreateResp.id
        = .ok c10CreateResp ∧
     get_canvas (update_canvas exampleDB "t5" 1 replacePayload).db c10UpdateResp.id
        = .ok c10UpdateResp) :=
  ⟨by decide, by decide,
    C10_response_equals_subsequent_get exampleDB "t5" 1 replacePayload
      c10CreateResp c10UpdateResp (by decide) (by decide)⟩
